import Mathlib

/-!
Shallow embedding of the OTP-authentication and session-token core of the
citsa-mobile-backend service (`src/services/*.ts` of the repository, the
auth-service functions `sendOtp`, `resendOtp`, `verifyOtp`,
`refreshAccessToken`, `logout`, `logoutAll`, `cleanupExpiredTokens`, and the
helpers in `src/utils/helpers.ts`).

Modelling conventions:
* timestamps are milliseconds since the epoch, as `Nat` (`Date.now()`);
* the relational store is a record of lists; `findUnique`/`findFirst` become
  `List.find?` / an explicit selection fold, `updateMany`/`deleteMany` become
  `List.map` / `List.filter`;
* `bcrypt.hash` is modelled as the identity on the plaintext code and
  `bcrypt.compare code hash` as string equality: bcrypt's contract is
  `compare c (hash c') = (c = c')` (the salt makes hashes differ but never
  changes the comparison outcome), which is exactly what the equality model
  gives;
* random OTP codes and the success of the e-mail collaborator are inputs of
  the operations (the caller's nondeterminism), so every run of the source is
  a run of the model at some input;
* the OTP row's schema defaults `attempts = 0`, `isUsed = false` (the Prisma
  `create` in the source passes neither field) follow the spec's data model.
-/

set_option linter.unusedVariables false
set_option maxRecDepth 8000

namespace Citsa

/-- Configuration block `config.otp` of `src/config/index.ts`
(defaults: expirySeconds 60, maxAttempts 3, window 5 min, max 3 requests). -/
structure OtpConfig where
  expirySeconds : Nat
  maxAttempts : Nat
  rateLimitWindowMinutes : Nat
  rateLimitMaxRequests : Nat
  deriving DecidableEq

/-- Configuration block `config.jwt` (two secrets, two expiries; the expiry
durations are carried in milliseconds). -/
structure JwtConfig where
  accessSecret : String
  refreshSecret : String
  accessExpiryMs : Nat
  refreshExpiryMs : Nat
  deriving DecidableEq

/-- The fields of the Prisma `User` row that the auth service reads/writes. -/
structure User where
  id : Nat
  studentId : String
  email : String
  role : String
  isActive : Bool
  isVerified : Bool
  deriving DecidableEq

/-- A Prisma `OtpVerification` row: `otpCode` stores the bcrypt hash of the
issued code (see the hash model above). -/
structure OtpRecord where
  id : Nat
  email : String
  otpCode : String
  createdAt : Nat
  expiresAt : Nat
  attempts : Nat
  isUsed : Bool
  deriving DecidableEq

/-- A signed JSON Web Token: payload `{userId, studentId, email, role}`,
the secret it was signed with, and its own (cryptographic) expiry instant.
`jwt.verify tok secret` succeeds iff the secret matches and the token's
`exp` has not passed. -/
structure Jwt where
  userId : Nat
  studentId : String
  email : String
  role : String
  secret : String
  exp : Nat
  deriving DecidableEq

/-- A Prisma `RefreshToken` row: the raw token value, its owner and the
store-side expiry (`now + 30 days`, set at creation). -/
structure RefreshTokenRecord where
  id : Nat
  token : Jwt
  userId : Nat
  expiresAt : Nat
  deriving DecidableEq

/-- The relational store visible to the auth service, plus fresh-id counters
standing for the store's id generation. -/
structure Db where
  users : List User
  otps : List OtpRecord
  refreshTokens : List RefreshTokenRecord
  nextOtpId : Nat
  nextRtId : Nat
  deriving DecidableEq

/-- The error taxonomy actually raised by the auth service
(`ErrorCodes.*` constants at the `throw new ApiError` sites);
`otpInvalid` carries the remaining-attempts number interpolated into the
source's message (`maxAttempts - otpRecord.attempts - 1`, a JS number,
hence `Int`). -/
inductive ApiErr where
  | userNotFound
  | userInactive
  | otpRateLimited
  | otpExpired
  | otpInvalid (remaining : Int)
  | otpMaxAttempts
  | tokenInvalid
  | tokenExpired
  | unauthorized
  | externalServiceErr
  deriving DecidableEq

/-- `bcrypt.hash(code, 10)`, modelled as the identity (see file header). -/
def bcryptHash (code : String) : String := code

/-- `bcrypt.compare(code, hash)`, modelled as string equality. -/
def bcryptCompare (code hash : String) : Bool := code == hash

/-- JavaScript `str.split(sep)` for a one-character separator, over the
character list: always returns at least one (possibly empty) piece. -/
def splitOnChar (c : Char) : List Char → List (List Char)
  | [] => [[]]
  | a :: t =>
    match splitOnChar c t with
    | [] => if a == c then [[], [a]] else [[a]]
    | h :: r => if a == c then [] :: h :: r else (a :: h) :: r

/-- `maskEmail` of `src/utils/helpers.ts`:
`const [localPart, domain] = email.split("@")`, then keep the first
character of the local part when its length is at most 4, otherwise the
first three and last two characters. -/
def maskEmail (email : String) : String :=
  let parts := splitOnChar '@' email.data
  let localPart := parts.headD []
  let domain := (parts.drop 1).headD []
  if localPart.length ≤ 4 then
    ⟨localPart.take 1 ++ ("***@".data ++ domain)⟩
  else
    ⟨localPart.take 3 ++ ("****".data
      ++ (localPart.drop (localPart.length - 2) ++ ('@' :: domain)))⟩

/-- The index the regex `^(.{3}).*(@.*)$` binds group 2 to: the LAST `@` at
position ≥ 3 (the `.*` between the groups is greedy). `none` when the
pattern does not match. -/
def lastAt3 (cs : List Char) : Option Nat :=
  ((List.range cs.length).filter
    (fun i => decide (3 ≤ i) && (cs.getD i ' ' == '@'))).getLast?

/-- `email.replace(/^(.{3}).*(@.*)$/, "$1****$2")` as used inline by
`sendOtp` and `resendOtp`: on a match, keep the first three characters,
insert `****`, keep from the last `@` on; otherwise return the string
unchanged. -/
def regexMaskEmail (s : String) : String :=
  match lastAt3 s.data with
  | none => s
  | some i => ⟨s.data.take 3 ++ ("****".data ++ s.data.drop i)⟩

/-- `prisma.user.findUnique({ where: { studentId } })`. -/
def findUser (db : Db) (sid : String) : Option User :=
  db.users.find? (fun u => u.studentId == sid)

/-- `prisma.otpVerification.count({ where: { email, createdAt: { gte:
now - window } } })` — counts ALL rows in the window, used or not. -/
def recentCount (otps : List OtpRecord) (email : String)
    (now windowMs : Nat) : Nat :=
  (otps.filter
    (fun o => o.email == email && decide (now - windowMs ≤ o.createdAt))).length

/-- The `where` clause of `verifyOtp`'s `findFirst`: same email, unused,
`expiresAt: { gte: now }`. -/
def activeFor (email : String) (now : Nat) (o : OtpRecord) : Bool :=
  o.email == email && !o.isUsed && decide (now ≤ o.expiresAt)

/-- The accumulator step realising `orderBy: { createdAt: "desc" }` over a
left fold: keep the row seen so far unless a strictly newer one appears. -/
def newer (acc : Option OtpRecord) (o : OtpRecord) : Option OtpRecord :=
  match acc with
  | none => some o
  | some b => if b.createdAt < o.createdAt then some o else some b

/-- `findFirst(..., orderBy: { createdAt: "desc" })`: the candidate with the
greatest `createdAt` (first inserted on ties). -/
def selectOtp (otps : List OtpRecord) (email : String) (now : Nat) :
    Option OtpRecord :=
  (otps.filter (activeFor email now)).foldl newer none

/-- The row update of `verifyOtp`'s mismatch branch, Prisma
`update({ where: { id }, data: { attempts: { increment: 1 } } })`
(ids are unique in the store, so the guarded map is that update). -/
def bumpAttempts (rid : Nat) (o : OtpRecord) : OtpRecord :=
  if o.id == rid then { o with attempts := o.attempts + 1 } else o

/-- The row update of `verifyOtp`'s match branch,
`update({ where: { id }, data: { isUsed: true } })`. -/
def markUsed (rid : Nat) (o : OtpRecord) : OtpRecord :=
  if o.id == rid then { o with isUsed := true } else o

/-- The `updateMany({ where: { email, isUsed: false }, data: { isUsed:
true } })` of `resendOtp`, row by row. -/
def invalidateFor (email : String) (o : OtpRecord) : OtpRecord :=
  if o.email == email && !o.isUsed then { o with isUsed := true } else o

/-- `user.update({ where: { id }, data: { isVerified: true } })`, row by
row. -/
def setVerified (uid : Nat) (x : User) : User :=
  if x.id == uid then { x with isVerified := true } else x

/-- The `otpVerification.create` row of both issuance operations: email,
hashed code, `expiresAt = now + expirySeconds`, schema defaults for
`attempts`/`isUsed`. -/
def newOtpRow (cfg : OtpConfig) (oid : Nat) (email code : String)
    (now : Nat) : OtpRecord :=
  { id := oid, email := email, otpCode := bcryptHash code, createdAt := now,
    expiresAt := now + cfg.expirySeconds * 1000, attempts := 0,
    isUsed := false }

/-- `sendOtp(studentId)` of the auth service. Inputs beyond the state:
`now` (`Date.now()`), `code` (the random 6-digit code produced by
`generateOtpCode`), `emailOk` (outcome of the e-mail collaborator).
Returns the masked email on success; on e-mail failure the freshly created
OTP row remains stored (the source throws after the insert, no rollback). -/
def sendOtp (cfg : OtpConfig) (db : Db) (now : Nat) (sid code : String)
    (emailOk : Bool) : Except ApiErr String × Db :=
  match findUser db sid with
  | none => (.error .userNotFound, db)
  | some student =>
    if !student.isActive then (.error .userInactive, db)
    else
      let email := student.email
      let cnt := recentCount db.otps email now
        (cfg.rateLimitWindowMinutes * 60000)
      if cfg.rateLimitMaxRequests ≤ cnt then (.error .otpRateLimited, db)
      else
        let row := newOtpRow cfg db.nextOtpId email code now
        let db1 : Db :=
          { db with otps := db.otps ++ [row], nextOtpId := db.nextOtpId + 1 }
        if !emailOk then (.error .externalServiceErr, db1)
        else (.ok (regexMaskEmail email), db1)

/-- `resendOtp(studentId)`: same lookup/inactive/rate checks as `sendOtp`,
then `updateMany` setting `isUsed := true` on every unused row of that email,
then the same insert/send as `sendOtp`.  Returns (masked email,
`expiresIn = config.otp.expirySeconds`). -/
def resendOtp (cfg : OtpConfig) (db : Db) (now : Nat) (sid code : String)
    (emailOk : Bool) : Except ApiErr (String × Nat) × Db :=
  match findUser db sid with
  | none => (.error .userNotFound, db)
  | some student =>
    if !student.isActive then (.error .userInactive, db)
    else
      let email := student.email
      let cnt := recentCount db.otps email now
        (cfg.rateLimitWindowMinutes * 60000)
      if cfg.rateLimitMaxRequests ≤ cnt then (.error .otpRateLimited, db)
      else
        let invalidated := db.otps.map (invalidateFor email)
        let row := newOtpRow cfg db.nextOtpId email code now
        let db1 : Db :=
          { db with otps := invalidated ++ [row],
                    nextOtpId := db.nextOtpId + 1 }
        if !emailOk then (.error .externalServiceErr, db1)
        else (.ok (regexMaskEmail email, cfg.expirySeconds), db1)

/-- `generateAccessToken(payload)`. -/
def generateAccessToken (jcfg : JwtConfig) (u : User) (now : Nat) : Jwt :=
  { userId := u.id, studentId := u.studentId, email := u.email,
    role := u.role, secret := jcfg.accessSecret,
    exp := now + jcfg.accessExpiryMs }

/-- `generateRefreshToken(payload)`. -/
def generateRefreshToken (jcfg : JwtConfig) (u : User) (now : Nat) : Jwt :=
  { userId := u.id, studentId := u.studentId, email := u.email,
    role := u.role, secret := jcfg.refreshSecret,
    exp := now + jcfg.refreshExpiryMs }

/-- The success payload of `verifyOtp` (the fields the claims mention). -/
structure TokenResponse where
  accessToken : Jwt
  refreshToken : Jwt
  expiresIn : Nat
  deriving DecidableEq

/-- `verifyOtp(studentId, otpCode)`, parameterised by the hash-comparison
function so that independence from the comparison ("the stored hash is not
compared") is expressible; the operation itself is
`verifyOtp = verifyOtpWith bcryptCompare`.
Path, exactly as the source: user lookup → select the newest unused
unexpired row → attempts gate → hash comparison → on mismatch increment
`attempts` of that row and fail OtpInvalid with
`maxAttempts - attempts - 1` remaining → on match mark the row used, set the
user verified, mint both tokens and persist the refresh token with store
expiry `now` + 30 days. -/
def verifyOtpWith (cmp : String → String → Bool) (cfg : OtpConfig)
    (jcfg : JwtConfig) (db : Db) (now : Nat) (sid code : String) :
    Except ApiErr TokenResponse × Db :=
  match findUser db sid with
  | none => (.error .userNotFound, db)
  | some student =>
    match selectOtp db.otps student.email now with
    | none => (.error .otpExpired, db)
    | some otpRecord =>
      if cfg.maxAttempts ≤ otpRecord.attempts then
        (.error .otpMaxAttempts, db)
      else if !cmp code otpRecord.otpCode then
        (.error (.otpInvalid
            ((cfg.maxAttempts : Int) - (otpRecord.attempts : Int) - 1)),
         { db with otps := db.otps.map (bumpAttempts otpRecord.id) })
      else
        let user : User := { student with isVerified := true }
        let access := generateAccessToken jcfg user now
        let refresh := generateRefreshToken jcfg user now
        let rt : RefreshTokenRecord :=
          { id := db.nextRtId, token := refresh, userId := user.id,
            expiresAt := now + 30 * 86400000 }
        (.ok { accessToken := access, refreshToken := refresh,
               expiresIn := 3600 },
         { db with otps := db.otps.map (markUsed otpRecord.id),
                   users := db.users.map (setVerified student.id),
                   refreshTokens := db.refreshTokens ++ [rt],
                   nextRtId := db.nextRtId + 1 })

/-- The operation as shipped: comparison is `bcrypt.compare`. -/
def verifyOtp (cfg : OtpConfig) (jcfg : JwtConfig) (db : Db) (now : Nat)
    (sid code : String) : Except ApiErr TokenResponse × Db :=
  verifyOtpWith bcryptCompare cfg jcfg db now sid code

/-- `jwt.verify(token, config.jwt.refreshSecret)` succeeds iff the token was
signed with that secret and its own expiry has not passed. -/
def jwtVerifyRefresh (jcfg : JwtConfig) (tok : Jwt) (now : Nat) : Bool :=
  tok.secret == jcfg.refreshSecret && decide (now < tok.exp)

/-- `refreshAccessToken(refreshToken)`: JWT verification (TokenInvalid on
failure) → store lookup (TokenInvalid if absent) → store-expiry check
(delete the row and TokenExpired) → owner-active check (Unauthorized) →
mint a new access token only. -/
def refreshAccessToken (jcfg : JwtConfig) (db : Db) (now : Nat) (tok : Jwt) :
    Except ApiErr Jwt × Db :=
  if !jwtVerifyRefresh jcfg tok now then (.error .tokenInvalid, db)
  else
    match db.refreshTokens.find? (fun r => r.token == tok) with
    | none => (.error .tokenInvalid, db)
    | some tokenRecord =>
      if tokenRecord.expiresAt < now then
        let remaining :=
          db.refreshTokens.filter (fun r => !(r.id == tokenRecord.id))
        (.error .tokenExpired, { db with refreshTokens := remaining })
      else
        match db.users.find? (fun u => u.id == tokenRecord.userId) with
        | none => (.error .unauthorized, db)
        | some owner =>
          if !owner.isActive then (.error .unauthorized, db)
          else (.ok (generateAccessToken jcfg owner now), db)

/-- `logout(refreshToken)`: `deleteMany` on the exact token value. -/
def logout (db : Db) (tok : Jwt) : Db :=
  { db with refreshTokens := db.refreshTokens.filter (fun r => !(r.token == tok)) }

/-- `logoutAll(userId)`: `deleteMany` by owner. -/
def logoutAll (db : Db) (uid : Nat) : Db :=
  { db with refreshTokens := db.refreshTokens.filter (fun r => !(r.userId == uid)) }

/-- `cleanupExpiredTokens()`: delete every OTP row and refresh-token row with
`expiresAt < now`. -/
def cleanupExpiredTokens (db : Db) (now : Nat) : Db :=
  { db with
      otps := db.otps.filter (fun o => !decide (o.expiresAt < now)),
      refreshTokens := db.refreshTokens.filter (fun r => !decide (r.expiresAt < now)) }

/-- One client-visible operation of the subsystem, with its inputs. -/
inductive Step where
  | send (sid code : String) (emailOk : Bool)
  | resend (sid code : String) (emailOk : Bool)
  | verify (sid code : String)
  | refresh (tok : Jwt)
  | doLogout (tok : Jwt)
  | doLogoutAll (uid : Nat)
  | cleanup
  deriving DecidableEq

/-- The state transition of one operation. -/
def applyStep (cfg : OtpConfig) (jcfg : JwtConfig) (db : Db) (now : Nat) :
    Step → Db
  | .send sid code emailOk => (sendOtp cfg db now sid code emailOk).2
  | .resend sid code emailOk => (resendOtp cfg db now sid code emailOk).2
  | .verify sid code => (verifyOtp cfg jcfg db now sid code).2
  | .refresh tok => (refreshAccessToken jcfg db now tok).2
  | .doLogout tok => logout db tok
  | .doLogoutAll uid => logoutAll db uid
  | .cleanup => cleanupExpiredTokens db now

/-- Iterated `verifyOtp` submissions (same caller, same instant), threading
only the state: the list holds the successive submitted codes. -/
def verifySeq (cfg : OtpConfig) (jcfg : JwtConfig) (db : Db) (now : Nat)
    (sid : String) : List String → Db
  | [] => db
  | c :: cs => verifySeq cfg jcfg (verifyOtp cfg jcfg db now sid c).2 now sid cs

/-! ### Helper lemmas about the selection fold and store maps -/

theorem foldl_newer_mem :
    ∀ (l : List OtpRecord) (acc : Option OtpRecord) (r : OtpRecord),
      l.foldl newer acc = some r → acc = some r ∨ r ∈ l := by
  intro l
  induction l with
  | nil => intro acc r h; exact Or.inl h
  | cons o t ih =>
    intro acc r h
    rcases ih (newer acc o) r h with h1 | h1
    · cases acc with
      | none =>
        have : o = r := by simpa [newer] using h1
        exact Or.inr (this ▸ List.mem_cons_self o t)
      | some b =>
        by_cases hlt : b.createdAt < o.createdAt
        · have : o = r := by simpa [newer, hlt] using h1
          exact Or.inr (this ▸ List.mem_cons_self o t)
        · have : b = r := by simpa [newer, hlt] using h1
          exact Or.inl (by rw [this])
    · exact Or.inr (List.mem_cons_of_mem o h1)

theorem selectOtp_mem {l : List OtpRecord} {email : String} {now : Nat}
    {r : OtpRecord} (h : selectOtp l email now = some r) :
    r ∈ l ∧ activeFor email now r = true := by
  unfold selectOtp at h
  rcases foldl_newer_mem _ none r h with h1 | h1
  · exact Option.noConfusion h1
  · exact List.mem_filter.mp h1

theorem foldl_newer_map (f : OtpRecord → OtpRecord)
    (hf : ∀ o, (f o).createdAt = o.createdAt) :
    ∀ (l : List OtpRecord) (acc : Option OtpRecord),
      (l.map f).foldl newer (acc.map f) = (l.foldl newer acc).map f := by
  intro l
  induction l with
  | nil => intro acc; rfl
  | cons o t ih =>
    intro acc
    have hstep : newer (acc.map f) (f o) = (newer acc o).map f := by
      cases acc with
      | none => rfl
      | some b => by_cases h : b.createdAt < o.createdAt <;> simp [newer, hf, h]
    simp only [List.map_cons, List.foldl_cons, hstep]
    exact ih (newer acc o)

theorem filter_map_comm (f : OtpRecord → OtpRecord) (p : OtpRecord → Bool) :
    ∀ l : List OtpRecord,
      (l.map f).filter p = (l.filter (fun o => p (f o))).map f := by
  intro l
  induction l with
  | nil => rfl
  | cons o t ih => by_cases h : p (f o) <;> simp [List.filter_cons, h, ih]

theorem selectOtp_map (f : OtpRecord → OtpRecord) (email : String) (now : Nat)
    (hact : ∀ o, activeFor email now (f o) = activeFor email now o)
    (hcr : ∀ o, (f o).createdAt = o.createdAt) (l : List OtpRecord) :
    selectOtp (l.map f) email now = (selectOtp l email now).map f := by
  unfold selectOtp
  rw [filter_map_comm, List.filter_congr (fun o _ => hact o)]
  simpa using foldl_newer_map f hcr (l.filter (activeFor email now)) none

theorem find?_map_pres {α : Type} (g : α → α) (p : α → Bool)
    (hp : ∀ a, p (g a) = p a) :
    ∀ l : List α, (l.map g).find? p = (l.find? p).map g := by
  intro l
  induction l with
  | nil => rfl
  | cons a t ih =>
    by_cases h : p a
    · rw [List.map_cons, List.find?_cons_of_pos _ (by rw [hp]; exact h),
        List.find?_cons_of_pos _ h, Option.map_some']
    · rw [List.map_cons, List.find?_cons_of_neg _ (by rw [hp]; simpa using h),
        List.find?_cons_of_neg _ (by simpa using h), ih]

/-! ### Branch behaviour of `verifyOtp` -/

/-- A wrong code below the attempts cap: OtpInvalid with
`maxAttempts - attempts - 1` remaining, and only the selected row's
`attempts` field changes. -/
theorem verifyOtp_wrong {cfg : OtpConfig} {jcfg : JwtConfig} {db : Db}
    {now : Nat} {sid code : String} {u : User} {r : OtpRecord}
    (hu : findUser db sid = some u)
    (hsel : selectOtp db.otps u.email now = some r)
    (hlt : r.attempts < cfg.maxAttempts)
    (hcmp : bcryptCompare code r.otpCode = false) :
    verifyOtp cfg jcfg db now sid code =
      (.error (.otpInvalid
          ((cfg.maxAttempts : Int) - (r.attempts : Int) - 1)),
       { db with otps := db.otps.map (bumpAttempts r.id) }) := by
  simp [verifyOtp, verifyOtpWith, hu, hsel, hcmp, Nat.not_le.mpr hlt]

/-- Once the selected row's `attempts` has reached the cap, the outcome is
OtpMaxAttempts with the state untouched, for EVERY comparison function and
EVERY submitted code: the stored hash is never consulted. -/
theorem verifyOtp_maxed {cfg : OtpConfig} {jcfg : JwtConfig} {db : Db}
    {now : Nat} {sid : String} {u : User} {r : OtpRecord}
    (hu : findUser db sid = some u)
    (hsel : selectOtp db.otps u.email now = some r)
    (hge : cfg.maxAttempts ≤ r.attempts)
    (cmp : String → String → Bool) (code : String) :
    verifyOtpWith cmp cfg jcfg db now sid code
      = (.error .otpMaxAttempts, db) := by
  simp [verifyOtpWith, hu, hsel, hge]

/-- Bumping the selected row's `attempts` neither disturbs which row
`selectOtp` picks nor any of its other fields. -/
theorem selectOtp_bump {l : List OtpRecord} {email : String} {now : Nat}
    {r : OtpRecord} (h : selectOtp l email now = some r) :
    selectOtp (l.map (bumpAttempts r.id)) email now
      = some { r with attempts := r.attempts + 1 } := by
  rw [selectOtp_map _ email now
      (fun o => by by_cases ho : o.id == r.id <;> simp [bumpAttempts, activeFor, ho])
      (fun o => by by_cases ho : o.id == r.id <;> simp [bumpAttempts, ho]) l, h]
  simp [bumpAttempts]

/-- Running `verifySeq` on wrong codes, while the cap is not yet reached,
keeps the same account and the same selected row, with `attempts` grown by
the number of submissions. -/
theorem verifySeq_wrong {cfg : OtpConfig} {jcfg : JwtConfig} {now : Nat}
    {sid : String} :
    ∀ (codes : List String) (db : Db) (u : User) (r : OtpRecord),
      findUser db sid = some u →
      selectOtp db.otps u.email now = some r →
      r.attempts + codes.length ≤ cfg.maxAttempts →
      (∀ c ∈ codes, bcryptCompare c r.otpCode = false) →
      findUser (verifySeq cfg jcfg db now sid codes) sid = some u ∧
      selectOtp (verifySeq cfg jcfg db now sid codes).otps u.email now
        = some { r with attempts := r.attempts + codes.length } := by
  intro codes
  induction codes with
  | nil =>
    intro db u r hu hsel hsum hw
    exact ⟨hu, by simpa using hsel⟩
  | cons c cs ih =>
    intro db u r hu hsel hsum hw
    obtain ⟨rid, rem, rcode, rcr, rex, rat, rus⟩ := r
    have hsum' : rat + (cs.length + 1) ≤ cfg.maxAttempts := by simpa using hsum
    have hlt : rat < cfg.maxAttempts := by omega
    have hcmp : bcryptCompare c rcode = false := hw c (List.mem_cons_self c cs)
    have hstep := @verifyOtp_wrong cfg jcfg db now sid c u _ hu hsel hlt hcmp
    have hrun : verifySeq cfg jcfg db now sid (c :: cs)
        = verifySeq cfg jcfg (verifyOtp cfg jcfg db now sid c).2 now sid cs :=
      rfl
    rw [hrun, hstep]
    have hsel1 := selectOtp_bump hsel
    obtain ⟨h1, h2⟩ := ih { db with otps := db.otps.map (bumpAttempts rid) } u
      ⟨rid, rem, rcode, rcr, rex, rat + 1, rus⟩ hu hsel1
      (by show rat + 1 + cs.length ≤ cfg.maxAttempts; omega)
      (fun c' hc' => hw c' (List.mem_cons_of_mem c hc'))
    have h2' : selectOtp (verifySeq cfg jcfg
          { db with otps := db.otps.map (bumpAttempts rid) } now sid cs).otps
          u.email now
        = some ⟨rid, rem, rcode, rcr, rex, rat + 1 + cs.length, rus⟩ := h2
    have harith : rat + 1 + cs.length = rat + (cs.length + 1) := by omega
    rw [harith] at h2'
    exact ⟨h1, h2'⟩

/-- C1: for every account with an active OTP record, after exactly
`otpMaxAttempts` consecutive wrong-code `verifyOtp` submissions against that
record, every subsequent `verifyOtp` call for that account fails
OtpMaxAttempts even when the submitted code is correct — the outcome is the
same for every hash-comparison function (so the stored hash is not
compared) — and the state is left untouched, so the failure repeats on
every later call. -/
theorem verifyOtp_locks_after_max_wrong_attempts
    (cfg : OtpConfig) (jcfg : JwtConfig) (db : Db) (now : Nat) (sid : String)
    (u : User) (r : OtpRecord) (codes : List String)
    (hu : findUser db sid = some u)
    (hsel : selectOtp db.otps u.email now = some r)
    (h0 : r.attempts = 0)
    (hlen : codes.length = cfg.maxAttempts)
    (hw : ∀ c ∈ codes, bcryptCompare c r.otpCode = false)
    (cmp : String → String → Bool) (code : String) :
    verifyOtpWith cmp cfg jcfg (verifySeq cfg jcfg db now sid codes) now sid
        code
      = (.error .otpMaxAttempts, verifySeq cfg jcfg db now sid codes) := by
  obtain ⟨h1, h2⟩ :=
    @verifySeq_wrong cfg jcfg now sid codes db u r hu hsel (by omega) hw
  refine verifyOtp_maxed h1 h2 ?_ cmp code
  show cfg.maxAttempts ≤ r.attempts + codes.length
  omega

/-! ### Concrete scenario used by the witnesses and counterexamples -/

/-- The configuration defaults of `src/config/index.ts`. -/
def cfgD : OtpConfig :=
  { expirySeconds := 60, maxAttempts := 3, rateLimitWindowMinutes := 5,
    rateLimitMaxRequests := 3 }

/-- JWT configuration with the default durations (1 h / 30 d, in ms). -/
def jcfgD : JwtConfig :=
  { accessSecret := "as", refreshSecret := "rs", accessExpiryMs := 3600000,
    refreshExpiryMs := 2592000000 }

/-- The account of the spec's acceptance scenario. -/
def amaUser : User :=
  { id := 1, studentId := "PS/ITC/22/0120", email := "ama.osei@ucc.edu.gh",
    role := "STUDENT", isActive := true, isVerified := false }

/-- One freshly issued OTP row for that account (code `123456`). -/
def recD : OtpRecord :=
  { id := 0, email := "ama.osei@ucc.edu.gh", otpCode := "123456",
    createdAt := 0, expiresAt := 60000, attempts := 0, isUsed := false }

/-- Store with the account and its fresh OTP row. -/
def dbD : Db :=
  { users := [amaUser], otps := [recD], refreshTokens := [], nextOtpId := 1,
    nextRtId := 0 }

/-- Witness for C1: with the default `maxAttempts = 3`, after the three wrong
codes 000000/000001/000002 the correct code `123456` is rejected with
OtpMaxAttempts. -/
theorem verifyOtp_locks_after_max_wrong_attempts_witness :
    verifyOtpWith bcryptCompare cfgD jcfgD
        (verifySeq cfgD jcfgD dbD 1 "PS/ITC/22/0120"
          ["000000", "000001", "000002"]) 1 "PS/ITC/22/0120" "123456"
      = (.error .otpMaxAttempts,
         verifySeq cfgD jcfgD dbD 1 "PS/ITC/22/0120"
           ["000000", "000001", "000002"]) :=
  verifyOtp_locks_after_max_wrong_attempts cfgD jcfgD dbD 1 "PS/ITC/22/0120"
    amaUser recD ["000000", "000001", "000002"] (by decide) (by decide)
    (by decide) (by decide) (by decide) bcryptCompare "123456"

/-- C5: a wrong code against a selected record below the cap increments that
record's `attempts` by exactly one (it is still the selected record, with
`attempts + 1`), and the call fails OtpInvalid reporting exactly
`maxAttempts - (attempts + 1)` remaining; with `maxAttempts = 3` that is
2, 1, 0 for pre-increment attempts 0, 1, 2. -/
theorem verifyOtp_wrong_code_increments_and_reports
    (cfg : OtpConfig) (jcfg : JwtConfig) (db : Db) (now : Nat)
    (sid code : String) (u : User) (r : OtpRecord)
    (hu : findUser db sid = some u)
    (hsel : selectOtp db.otps u.email now = some r)
    (hlt : r.attempts < cfg.maxAttempts)
    (hcmp : bcryptCompare code r.otpCode = false) :
    verifyOtp cfg jcfg db now sid code
      = (.error (.otpInvalid
          ((cfg.maxAttempts : Int) - ((r.attempts : Int) + 1))),
         { db with otps := db.otps.map (bumpAttempts r.id) }) ∧
    selectOtp ((verifyOtp cfg jcfg db now sid code).2).otps u.email now
      = some { r with attempts := r.attempts + 1 } ∧
    (cfg.maxAttempts = 3 →
      (r.attempts = 0 →
        (cfg.maxAttempts : Int) - ((r.attempts : Int) + 1) = 2) ∧
      (r.attempts = 1 →
        (cfg.maxAttempts : Int) - ((r.attempts : Int) + 1) = 1) ∧
      (r.attempts = 2 →
        (cfg.maxAttempts : Int) - ((r.attempts : Int) + 1) = 0)) := by
  have hstep := @verifyOtp_wrong cfg jcfg db now sid code u r hu hsel hlt hcmp
  have harith : (cfg.maxAttempts : Int) - (r.attempts : Int) - 1
      = (cfg.maxAttempts : Int) - ((r.attempts : Int) + 1) := by omega
  rw [harith] at hstep
  refine ⟨hstep, ?_, ?_⟩
  · rw [hstep]
    exact selectOtp_bump hsel
  · intro h3
    exact ⟨fun h0 => by omega, fun h1 => by omega, fun h2 => by omega⟩

/-- Witness for C5: first wrong code on a fresh record under the default
configuration reports 2 remaining attempts. -/
theorem verifyOtp_wrong_code_increments_and_reports_witness :
    verifyOtp cfgD jcfgD dbD 1 "PS/ITC/22/0120" "000000"
      = (.error (.otpInvalid 2),
         { dbD with otps := dbD.otps.map (bumpAttempts recD.id) }) ∧
    selectOtp ((verifyOtp cfgD jcfgD dbD 1 "PS/ITC/22/0120" "000000").2).otps
        "ama.osei@ucc.edu.gh" 1
      = some { recD with attempts := 1 } :=
  have h := verifyOtp_wrong_code_increments_and_reports cfgD jcfgD dbD 1
    "PS/ITC/22/0120" "000000" amaUser recD (by decide) (by decide) (by decide)
    (by decide)
  ⟨h.1, h.2.1⟩

/-- C6: for an inactive account `sendOtp` fails UserInactive with the state
untouched, whatever the OTP store, the clock, the generated code or the
e-mail outcome — the check precedes the rate limiter and the insert. -/
theorem sendOtp_inactive_always_fails
    (cfg : OtpConfig) (db : Db) (now : Nat) (sid code : String)
    (emailOk : Bool) (u : User)
    (hu : findUser db sid = some u)
    (hin : u.isActive = false) :
    sendOtp cfg db now sid code emailOk = (.error .userInactive, db) := by
  simp [sendOtp, hu, hin]

/-- Witness for C6: the scenario account deactivated, with a store already
holding OTP rows. -/
theorem sendOtp_inactive_always_fails_witness :
    sendOtp cfgD
        { users := [{ amaUser with isActive := false }], otps := [recD],
          refreshTokens := [], nextOtpId := 1, nextRtId := 0 }
        5 "PS/ITC/22/0120" "123456" true
      = (.error .userInactive,
         { users := [{ amaUser with isActive := false }], otps := [recD],
           refreshTokens := [], nextOtpId := 1, nextRtId := 0 }) :=
  sendOtp_inactive_always_fails cfgD _ 5 "PS/ITC/22/0120" "123456" true
    { amaUser with isActive := false } (by decide) (by decide)

/-- C8 counterexample: on the spec's own acceptance scenario the value a
successful `sendOtp` returns is `ama****@ucc.edu.gh`, but the pure
keep-first-3-plus-last-2 masking function (`maskEmail` of
`src/utils/helpers.ts`, the function the claim describes) yields
`ama****ei@ucc.edu.gh`, so the returned value is NOT computed by that
function. -/
theorem sendOtp_mask_is_not_maskEmail :
    (sendOtp cfgD dbD 0 "PS/ITC/22/0120" "654321" true).1
        = .ok "ama****@ucc.edu.gh" ∧
    maskEmail "ama.osei@ucc.edu.gh" = "ama****ei@ucc.edu.gh" ∧
    (sendOtp cfgD dbD 0 "PS/ITC/22/0120" "654321" true).1
        ≠ .ok (maskEmail "ama.osei@ucc.edu.gh") := by
  have h1 : (sendOtp cfgD dbD 0 "PS/ITC/22/0120" "654321" true).1
      = .ok "ama****@ucc.edu.gh" := rfl
  have h2 : maskEmail "ama.osei@ucc.edu.gh" = "ama****ei@ucc.edu.gh" := rfl
  refine ⟨h1, h2, ?_⟩
  rw [h1, h2]
  intro h
  exact absurd (Except.ok.inj h) (by decide)

/-- C8 amended: a successful `sendOtp` returns the account's email masked by
the inline regex replacement `^(.{3}).*(@.*)$` → `$1****$2` (keep the first
three characters, then `****`, then from the last `@` on); on
`ama.osei@ucc.edu.gh` this yields `ama****@ucc.edu.gh`. -/
theorem sendOtp_returns_regex_masked_email
    (cfg : OtpConfig) (db : Db) (now : Nat) (sid code : String) (u : User)
    (hu : findUser db sid = some u)
    (hact : u.isActive = true)
    (hrate : recentCount db.otps u.email now
        (cfg.rateLimitWindowMinutes * 60000) < cfg.rateLimitMaxRequests) :
    (sendOtp cfg db now sid code true).1 = .ok (regexMaskEmail u.email) ∧
    regexMaskEmail "ama.osei@ucc.edu.gh" = "ama****@ucc.edu.gh" := by
  constructor
  · simp [sendOtp, hu, hact, Nat.not_le.mpr hrate]
  · decide

/-- Witness for C8 (amended): the acceptance scenario itself. -/
theorem sendOtp_returns_regex_masked_email_witness :
    (sendOtp cfgD dbD 0 "PS/ITC/22/0120" "654321" true).1
        = .ok (regexMaskEmail "ama.osei@ucc.edu.gh") ∧
    regexMaskEmail "ama.osei@ucc.edu.gh" = "ama****@ucc.edu.gh" :=
  sendOtp_returns_regex_masked_email cfgD dbD 0 "PS/ITC/22/0120" "654321"
    amaUser (by decide) (by decide) (by decide)

/-- C4: the issuance count is recomputed per call over ALL rows of the email
inside the trailing window (insensitive to any rewriting of the rows that
keeps email and createdAt, in particular to `isUsed` flips); at or above
`rateLimitMaxRequests` both issuance operations fail RateLimited with the
state untouched (no row created); once the window has elapsed past every row
of that email, both succeed again. -/
theorem issuance_rate_limit_window
    (cfg : OtpConfig) (db : Db) (now : Nat) (sid code : String)
    (emailOk : Bool) (u : User)
    (hu : findUser db sid = some u)
    (hact : u.isActive = true)
    (hmax : 0 < cfg.rateLimitMaxRequests) :
    (∀ f : OtpRecord → OtpRecord,
      (∀ o, (f o).email = o.email ∧ (f o).createdAt = o.createdAt) →
      recentCount (db.otps.map f) u.email now
          (cfg.rateLimitWindowMinutes * 60000)
        = recentCount db.otps u.email now
          (cfg.rateLimitWindowMinutes * 60000)) ∧
    (cfg.rateLimitMaxRequests ≤ recentCount db.otps u.email now
        (cfg.rateLimitWindowMinutes * 60000) →
      sendOtp cfg db now sid code emailOk = (.error .otpRateLimited, db) ∧
      resendOtp cfg db now sid code emailOk = (.error .otpRateLimited, db)) ∧
    ((∀ o ∈ db.otps, o.email = u.email →
        o.createdAt + cfg.rateLimitWindowMinutes * 60000 < now) →
      (sendOtp cfg db now sid code true).1 = .ok (regexMaskEmail u.email) ∧
      (resendOtp cfg db now sid code true).1
        = .ok (regexMaskEmail u.email, cfg.expirySeconds)) := by
  refine ⟨?_, ?_, ?_⟩
  · intro f hf
    unfold recentCount
    rw [filter_map_comm, List.filter_congr
      (fun o _ => by rw [(hf o).1, (hf o).2]), List.length_map]
  · intro hge
    exact ⟨by simp [sendOtp, hu, hact, hge], by simp [resendOtp, hu, hact, hge]⟩
  · intro helapsed
    have hnil : db.otps.filter (fun o => o.email == u.email &&
        decide (now - cfg.rateLimitWindowMinutes * 60000 ≤ o.createdAt))
        = [] := by
      rw [List.filter_eq_nil_iff]
      intro o ho hcontra
      simp only [Bool.and_eq_true, beq_iff_eq, decide_eq_true_eq] at hcontra
      have := helapsed o ho hcontra.1
      omega
    have hcnt : recentCount db.otps u.email now
        (cfg.rateLimitWindowMinutes * 60000) = 0 := by
      unfold recentCount
      rw [hnil]
      rfl
    have hnot : ¬(cfg.rateLimitMaxRequests ≤ recentCount db.otps u.email now
        (cfg.rateLimitWindowMinutes * 60000)) := by
      rw [hcnt]; omega
    exact ⟨by simp [sendOtp, hu, hact, hnot],
           by simp [resendOtp, hu, hact, hnot]⟩

/-- Store holding three rows issued at instant 0 for the scenario email. -/
def dbRate : Db :=
  { users := [amaUser],
    otps := [recD, { recD with id := 1 }, { recD with id := 2 }],
    refreshTokens := [], nextOtpId := 3, nextRtId := 0 }

/-- Witness for C4: with three rows already inside the 5-minute window the
fourth `sendOtp` is rate limited; at `now` past the window it succeeds. -/
theorem issuance_rate_limit_window_witness :
    sendOtp cfgD dbRate 1 "PS/ITC/22/0120" "999999" true
      = (.error .otpRateLimited, dbRate) ∧
    (sendOtp cfgD dbRate 600001 "PS/ITC/22/0120" "999999" true).1
      = .ok "ama****@ucc.edu.gh" := by
  have h1 := issuance_rate_limit_window cfgD dbRate 1 "PS/ITC/22/0120"
    "999999" true amaUser (by decide) (by decide) (by decide)
  have h2 := issuance_rate_limit_window cfgD dbRate 600001 "PS/ITC/22/0120"
    "999999" true amaUser (by decide) (by decide) (by decide)
  refine ⟨(h1.2.1 (by decide)).1, ?_⟩
  have := (h2.2.2 (by decide)).1
  rw [this]
  rfl

/-- Success/failure discriminator for results of the operations. -/
def isOkE {α : Type} : Except ApiErr α → Bool
  | .ok _ => true
  | .error _ => false

/-- Store holding only the scenario account and nothing else. -/
def dbEmpty : Db :=
  { users := [amaUser], otps := [], refreshTokens := [], nextOtpId := 0,
    nextRtId := 0 }

/-- C2 counterexample: two `sendOtp` calls for the same account may draw the
same random code (`generateOtpCode` is uniform over 6-digit strings), which
leaves two simultaneously active rows carrying the same code. Verifying
succeeds against the newest row and marks it used — and REPLAYING the very
same code succeeds a second time, against the older row, instead of failing
OtpExpired/NotFound. -/
theorem verifyOtp_replay_can_succeed :
    isOkE (verifyOtp cfgD jcfgD
        (sendOtp cfgD (sendOtp cfgD dbEmpty 0 "PS/ITC/22/0120" "111111"
          true).2 1 "PS/ITC/22/0120" "111111" true).2
        2 "PS/ITC/22/0120" "111111").1 = true ∧
    isOkE (verifyOtp cfgD jcfgD
        (verifyOtp cfgD jcfgD
          (sendOtp cfgD (sendOtp cfgD dbEmpty 0 "PS/ITC/22/0120" "111111"
            true).2 1 "PS/ITC/22/0120" "111111" true).2
          2 "PS/ITC/22/0120" "111111").2
        3 "PS/ITC/22/0120" "111111").1 = true :=
  ⟨rfl, rfl⟩

/-- C2 amended: the used row itself can never be selected again — when the
verified row was the only unused row for that email, every later `verifyOtp`
call for the account (any code, any instant, in particular a replay of the
same code) fails OtpExpired with the state untouched. -/
theorem verifyOtp_replay_fails_when_no_other_active
    (cfg : OtpConfig) (jcfg : JwtConfig) (db : Db) (now : Nat)
    (sid code : String) (u : User) (r : OtpRecord)
    (hu : findUser db sid = some u)
    (hsel : selectOtp db.otps u.email now = some r)
    (hatt : r.attempts < cfg.maxAttempts)
    (hcode : bcryptCompare code r.otpCode = true)
    (honly : ∀ o ∈ db.otps, o.email = u.email → o.isUsed = false →
      o.id = r.id) :
    isOkE (verifyOtp cfg jcfg db now sid code).1 = true ∧
    ∀ (now2 : Nat) (code2 : String),
      verifyOtp cfg jcfg (verifyOtp cfg jcfg db now sid code).2 now2 sid code2
        = (.error .otpExpired, (verifyOtp cfg jcfg db now sid code).2) := by
  have hok : isOkE (verifyOtp cfg jcfg db now sid code).1 = true := by
    simp [verifyOtp, verifyOtpWith, hu, hsel, hcode, Nat.not_le.mpr hatt, isOkE]
  refine ⟨hok, ?_⟩
  intro now2 code2
  have hst : (verifyOtp cfg jcfg db now sid code).2
      = { db with otps := db.otps.map (markUsed r.id),
                  users := db.users.map (setVerified u.id),
                  refreshTokens := db.refreshTokens ++
                    [{ id := db.nextRtId,
                       token := generateRefreshToken jcfg
                         { u with isVerified := true } now,
                       userId := u.id, expiresAt := now + 30 * 86400000 }],
                  nextRtId := db.nextRtId + 1 } := by
    simp [verifyOtp, verifyOtpWith, hu, hsel, hcode, Nat.not_le.mpr hatt]
  rw [hst]
  have hu' : db.users.find? (fun x => x.studentId == sid) = some u := hu
  have hfu2 : (db.users.map (setVerified u.id)).find?
      (fun x => x.studentId == sid) = some { u with isVerified := true } := by
    rw [find?_map_pres (setVerified u.id) _
      (fun a => by by_cases h : a.id == u.id <;> simp [setVerified, h]), hu']
    simp [setVerified]
  have hnil : (db.otps.map (markUsed r.id)).filter (activeFor u.email now2)
      = [] := by
    rw [filter_map_comm]
    have : db.otps.filter
        (fun o => activeFor u.email now2 (markUsed r.id o)) = [] := by
      rw [List.filter_eq_nil_iff]
      intro o ho hcontra
      by_cases hid : o.id == r.id
      · simp [activeFor, markUsed, hid] at hcontra
      · simp [activeFor, markUsed, hid] at hcontra
        exact absurd (honly o ho hcontra.1.1 hcontra.1.2)
          (by simpa using hid)
    rw [this]
    rfl
  have hsel2 : selectOtp (db.otps.map (markUsed r.id)) u.email now2
      = none := by
    unfold selectOtp
    rw [hnil]
    rfl
  simp [verifyOtp, verifyOtpWith, findUser, hfu2, hsel2]

/-- Witness for the amended C2: verify the single fresh row of `dbD`, then
replay the same code one instant later: OtpExpired. -/
theorem verifyOtp_replay_fails_when_no_other_active_witness :
    isOkE (verifyOtp cfgD jcfgD dbD 1 "PS/ITC/22/0120" "123456").1 = true ∧
    verifyOtp cfgD jcfgD (verifyOtp cfgD jcfgD dbD 1 "PS/ITC/22/0120"
        "123456").2 2 "PS/ITC/22/0120" "123456"
      = (.error .otpExpired,
         (verifyOtp cfgD jcfgD dbD 1 "PS/ITC/22/0120" "123456").2) :=
  have h := verifyOtp_replay_fails_when_no_other_active cfgD jcfgD dbD 1
    "PS/ITC/22/0120" "123456" amaUser recD (by decide) (by decide) (by decide)
    (by decide) (by decide)
  ⟨h.1, h.2 2 "123456"⟩

/-- C3 counterexample: `resendOtp` draws a fresh random code that may equal
a code issued before the resend. The resend succeeds (invalidating the old
row), yet submitting the pre-resend code `111111` — still within its
original expiry — verifies successfully, because the new row carries the
same code. -/
theorem resendOtp_reissued_code_verifies :
    isOkE (resendOtp cfgD (sendOtp cfgD dbEmpty 0 "PS/ITC/22/0120" "111111"
        true).2 1 "PS/ITC/22/0120" "111111" true).1 = true ∧
    isOkE (verifyOtp cfgD jcfgD
        (resendOtp cfgD (sendOtp cfgD dbEmpty 0 "PS/ITC/22/0120" "111111"
          true).2 1 "PS/ITC/22/0120" "111111" true).2
        2 "PS/ITC/22/0120" "111111").1 = true :=
  ⟨rfl, rfl⟩

/-- C3 amended: after a successful `resendOtp`, every pre-resend row of that
email is marked used (the post-state is exactly the invalidated rows plus
the one fresh row), and a `verifyOtp` submission of any code issued before
the resend fails — at any instant — PROVIDED that code differs from the
freshly generated one. -/
theorem resendOtp_invalidates_prior_codes
    (cfg : OtpConfig) (jcfg : JwtConfig) (db : Db) (now : Nat)
    (sid newCode : String) (u : User)
    (hu : findUser db sid = some u)
    (hact : u.isActive = true)
    (hrate : recentCount db.otps u.email now
        (cfg.rateLimitWindowMinutes * 60000) < cfg.rateLimitMaxRequests) :
    ((resendOtp cfg db now sid newCode true).2).otps
      = db.otps.map (invalidateFor u.email)
          ++ [newOtpRow cfg db.nextOtpId u.email newCode now] ∧
    (∀ o ∈ db.otps.map (invalidateFor u.email), o.email = u.email →
      o.isUsed = true) ∧
    (∀ (now2 : Nat) (oldCode : String), oldCode ≠ newCode →
      isOkE (verifyOtp cfg jcfg (resendOtp cfg db now sid newCode true).2
        now2 sid oldCode).1 = false) := by
  have hnot : ¬(cfg.rateLimitMaxRequests ≤ recentCount db.otps u.email now
      (cfg.rateLimitWindowMinutes * 60000)) := by omega
  have hpost : (resendOtp cfg db now sid newCode true).2
      = { db with
          otps := db.otps.map (invalidateFor u.email)
            ++ [newOtpRow cfg db.nextOtpId u.email newCode now],
          nextOtpId := db.nextOtpId + 1 } := by
    simp [resendOtp, hu, hact, hnot]
  have hinv : ∀ o ∈ db.otps.map (invalidateFor u.email), o.email = u.email →
      o.isUsed = true := by
    intro o' ho' hem
    obtain ⟨o, ho, rfl⟩ := List.mem_map.mp ho'
    by_cases h1 : o.email == u.email
    · by_cases h2 : o.isUsed
      · simp [invalidateFor, h1, h2]
      · simp [invalidateFor, h1, h2]
    · simp [invalidateFor, h1] at hem ⊢
      exact absurd (by exact_mod_cast hem) (by simpa using h1)
  refine ⟨by rw [hpost], hinv, ?_⟩
  intro now2 oldCode hne
  rw [hpost]
  have hu' : db.users.find? (fun x => x.studentId == sid) = some u := hu
  have hmapnil : (db.otps.map (invalidateFor u.email)).filter
      (activeFor u.email now2) = [] := by
    rw [filter_map_comm, List.filter_eq_nil_iff.mpr, List.map_nil]
    intro o ho hcontra
    by_cases h1 : o.email == u.email
    · by_cases h2 : o.isUsed
      · simp [activeFor, invalidateFor, h1, h2] at hcontra
      · simp [activeFor, invalidateFor, h1, h2] at hcontra
    · simp [activeFor, invalidateFor, h1] at hcontra
  by_cases hexp : now2 ≤ now + cfg.expirySeconds * 1000
  · have hselPost : selectOtp (db.otps.map (invalidateFor u.email)
          ++ [newOtpRow cfg db.nextOtpId u.email newCode now]) u.email now2
        = some (newOtpRow cfg db.nextOtpId u.email newCode now) := by
      unfold selectOtp
      rw [List.filter_append, hmapnil, List.nil_append]
      simp [activeFor, newOtpRow, hexp, newer]
    have hatt0 : (newOtpRow cfg db.nextOtpId u.email newCode now).attempts
        = 0 := rfl
    have hcode0 : (newOtpRow cfg db.nextOtpId u.email newCode now).otpCode
        = bcryptHash newCode := rfl
    by_cases hmax : cfg.maxAttempts ≤ 0
    · simp [verifyOtp, verifyOtpWith, findUser, hu', hselPost, hatt0,
        hmax, isOkE]
    · have hc : bcryptCompare oldCode (bcryptHash newCode) = false := by
        simpa [bcryptCompare, bcryptHash] using hne
      simp [verifyOtp, verifyOtpWith, findUser, hu', hselPost, hatt0, hcode0,
        hmax, hc, isOkE]
  · have hselPost : selectOtp (db.otps.map (invalidateFor u.email)
          ++ [newOtpRow cfg db.nextOtpId u.email newCode now]) u.email now2
        = none := by
      unfold selectOtp
      rw [List.filter_append, hmapnil, List.nil_append]
      simp [activeFor, newOtpRow, hexp, newer]
    simp [verifyOtp, verifyOtpWith, findUser, hu', hselPost, isOkE]

/-- Witness for the amended C3: resend with fresh code `654321`; the
pre-resend code `123456` is rejected one instant later. -/
theorem resendOtp_invalidates_prior_codes_witness :
    isOkE (verifyOtp cfgD jcfgD (resendOtp cfgD dbD 1 "PS/ITC/22/0120"
        "654321" true).2 2 "PS/ITC/22/0120" "123456").1 = false :=
  (resendOtp_invalidates_prior_codes cfgD jcfgD dbD 1 "PS/ITC/22/0120"
    "654321" amaUser (by decide) (by decide) (by decide)).2.2 2 "123456"
    (by decide)

/-- A refresh token whose own JWT expiry (5) and store expiry (5) have both
passed at instant 10 — the situation every token reaches under the default
configuration, where the JWT lifetime and the 30-day store lifetime
coincide. -/
def tokC7 : Jwt :=
  { userId := 1, studentId := "PS/ITC/22/0120", email := "ama.osei@ucc.edu.gh",
    role := "STUDENT", secret := "rs", exp := 5 }

/-- Store holding that token's record, already past its store expiry. -/
def dbC7 : Db :=
  { users := [amaUser], otps := [],
    refreshTokens := [{ id := 0, token := tokC7, userId := 1, expiresAt := 5 }],
    nextOtpId := 0, nextRtId := 1 }

/-- C7 counterexample: the token is present in the store and its stored
`expiresAt` is in the past, yet `refreshAccessToken` fails TokenInvalid —
`jwt.verify` rejects the token's own expiry first — and the record is NOT
deleted (the state is returned unchanged). -/
theorem refreshAccessToken_db_expired_not_tokenExpired :
    dbC7.refreshTokens.find? (fun r => r.token == tokC7)
      = some { id := 0, token := tokC7, userId := 1, expiresAt := 5 } ∧
    refreshAccessToken jcfgD dbC7 10 tokC7 = (.error .tokenInvalid, dbC7) :=
  ⟨rfl, rfl⟩

/-- C7 amended: PROVIDED the JWT itself still verifies (refresh secret, own
expiry not passed), a stored record whose store-side `expiresAt` has passed
is deleted and the call fails TokenExpired; the repeat call with the same
token then fails TokenInvalid, the store being unchanged by it. -/
theorem refreshAccessToken_expired_record_then_invalid
    (jcfg : JwtConfig) (db : Db) (now : Nat) (tok : Jwt)
    (tr : RefreshTokenRecord)
    (hverify : jwtVerifyRefresh jcfg tok now = true)
    (hfind : db.refreshTokens.find? (fun r => r.token == tok) = some tr)
    (hexp : tr.expiresAt < now)
    (huniq : ∀ rr ∈ db.refreshTokens, rr.token = tok → rr.id = tr.id) :
    refreshAccessToken jcfg db now tok
      = (.error .tokenExpired,
         { db with refreshTokens :=
            db.refreshTokens.filter (fun r => !(r.id == tr.id)) }) ∧
    refreshAccessToken jcfg
        { db with refreshTokens :=
            db.refreshTokens.filter (fun r => !(r.id == tr.id)) } now tok
      = (.error .tokenInvalid,
         { db with refreshTokens :=
            db.refreshTokens.filter (fun r => !(r.id == tr.id)) }) := by
  constructor
  · simp [refreshAccessToken, hverify, hfind, hexp]
  · have hnone : (db.refreshTokens.filter
        (fun r => !(r.id == tr.id))).find? (fun r => r.token == tok)
        = none := by
      rw [List.find?_eq_none]
      intro rr hrr hcontra
      have hmem := List.mem_filter.mp hrr
      have htok : rr.token = tok := by simpa using hcontra
      have hid := huniq rr hmem.1 htok
      simp [hid] at hmem
    simp [refreshAccessToken, hverify, hnone]

/-- Witness for the amended C7: same store, but the token's own expiry (100)
has not passed at instant 10 while the stored `expiresAt` (5) has. -/
theorem refreshAccessToken_expired_record_then_invalid_witness :
    refreshAccessToken jcfgD
        { users := [amaUser], otps := [],
          refreshTokens := [{ id := 0, token := { tokC7 with exp := 100 },
                              userId := 1, expiresAt := 5 }],
          nextOtpId := 0, nextRtId := 1 } 10 { tokC7 with exp := 100 }
      = (.error .tokenExpired,
         { users := [amaUser], otps := [], refreshTokens := [],
           nextOtpId := 0, nextRtId := 1 }) ∧
    refreshAccessToken jcfgD
        { users := [amaUser], otps := [], refreshTokens := [],
          nextOtpId := 0, nextRtId := 1 } 10 { tokC7 with exp := 100 }
      = (.error .tokenInvalid,
         { users := [amaUser], otps := [], refreshTokens := [],
           nextOtpId := 0, nextRtId := 1 }) :=
  refreshAccessToken_expired_record_then_invalid jcfgD
    { users := [amaUser], otps := [],
      refreshTokens := [{ id := 0, token := { tokC7 with exp := 100 },
                          userId := 1, expiresAt := 5 }],
      nextOtpId := 0, nextRtId := 1 } 10 { tokC7 with exp := 100 }
    { id := 0, token := { tokC7 with exp := 100 }, userId := 1,
      expiresAt := 5 }
    (by decide) (by decide) (by decide) (by decide)

/-! ### Shape of the OTP store after each operation -/

theorem sendOtp_otps_shape (cfg : OtpConfig) (db : Db) (now : Nat)
    (sid code : String) (emailOk : Bool) :
    (sendOtp cfg db now sid code emailOk).2.otps = db.otps ∨
    ∃ email, (sendOtp cfg db now sid code emailOk).2.otps
      = db.otps ++ [newOtpRow cfg db.nextOtpId email code now] := by
  unfold sendOtp
  cases hfu : findUser db sid with
  | none => exact Or.inl rfl
  | some u =>
    by_cases hact : u.isActive
    · by_cases hrate : cfg.rateLimitMaxRequests ≤ recentCount db.otps u.email
        now (cfg.rateLimitWindowMinutes * 60000)
      · simp only [hact, hrate]
        exact Or.inl rfl
      · cases emailOk <;>
          exact Or.inr ⟨u.email, by simp [hact, hrate]⟩
    · simp only [Bool.not_eq_true] at hact
      simp only [hact]
      exact Or.inl rfl

theorem resendOtp_otps_shape (cfg : OtpConfig) (db : Db) (now : Nat)
    (sid code : String) (emailOk : Bool) :
    (resendOtp cfg db now sid code emailOk).2.otps = db.otps ∨
    ∃ email, (resendOtp cfg db now sid code emailOk).2.otps
      = db.otps.map (invalidateFor email)
        ++ [newOtpRow cfg db.nextOtpId email code now] := by
  unfold resendOtp
  cases hfu : findUser db sid with
  | none => exact Or.inl rfl
  | some u =>
    by_cases hact : u.isActive
    · by_cases hrate : cfg.rateLimitMaxRequests ≤ recentCount db.otps u.email
        now (cfg.rateLimitWindowMinutes * 60000)
      · simp only [hact, hrate]
        exact Or.inl rfl
      · cases emailOk <;>
          exact Or.inr ⟨u.email, by simp [hact, hrate]⟩
    · simp only [Bool.not_eq_true] at hact
      simp only [hact]
      exact Or.inl rfl

theorem verifyOtp_otps_shape (cfg : OtpConfig) (jcfg : JwtConfig) (db : Db)
    (now : Nat) (sid code : String) :
    (verifyOtp cfg jcfg db now sid code).2.otps = db.otps ∨
    ∃ u sel, findUser db sid = some u ∧
      selectOtp db.otps u.email now = some sel ∧
      sel.attempts < cfg.maxAttempts ∧
      ((verifyOtp cfg jcfg db now sid code).2.otps
          = db.otps.map (bumpAttempts sel.id) ∨
       (verifyOtp cfg jcfg db now sid code).2.otps
          = db.otps.map (markUsed sel.id)) := by
  cases hfu : findUser db sid with
  | none => exact Or.inl (by simp [verifyOtp, verifyOtpWith, hfu])
  | some u =>
    cases hsel : selectOtp db.otps u.email now with
    | none => exact Or.inl (by simp [verifyOtp, verifyOtpWith, hfu, hsel])
    | some sel =>
      by_cases hmax : cfg.maxAttempts ≤ sel.attempts
      · exact Or.inl (by simp [verifyOtp, verifyOtpWith, hfu, hsel, hmax])
      · by_cases hcmp : bcryptCompare code sel.otpCode
        · exact Or.inr ⟨u, sel, rfl, hsel, by omega,
            Or.inr (by simp [verifyOtp, verifyOtpWith, hfu, hsel, hmax, hcmp])⟩
        · have hc : bcryptCompare code sel.otpCode = false := by
            simpa using hcmp
          exact Or.inr ⟨u, sel, rfl, hsel, by omega,
            Or.inl (by simp [verifyOtp, verifyOtpWith, hfu, hsel, hmax, hc])⟩

theorem refreshAccessToken_otps_shape (jcfg : JwtConfig) (db : Db)
    (now : Nat) (tok : Jwt) :
    (refreshAccessToken jcfg db now tok).2.otps = db.otps := by
  unfold refreshAccessToken
  by_cases hv : jwtVerifyRefresh jcfg tok now
  · simp only [hv]
    cases hf : db.refreshTokens.find? (fun r => r.token == tok) with
    | none => rfl
    | some tr =>
      by_cases he : tr.expiresAt < now
      · simp [he]
      · simp only [he]
        cases hu : db.users.find? (fun x => x.id == tr.userId) with
        | none => simp [hu]
        | some owner => by_cases ha : owner.isActive <;> simp [hu, ha]
  · simp only [Bool.not_eq_true] at hv
    simp [hv]

/-- C9: every operation of the subsystem preserves the OtpRecord
state-machine invariants — over one step of any operation, a surviving row
(matched by its unique id, ids being below the fresh-id counter) never has
`isUsed` reset from true to false, never has `attempts` decremented, keeps
`attempts ≤ maxAttempts` (the increment fires only below the cap), keeps its
expiry, and hence never transitions back to the ACTIVE state
(unused ∧ unexpired ∧ attempts below the cap). -/
theorem otp_record_state_machine_invariants
    (cfg : OtpConfig) (jcfg : JwtConfig) (db : Db) (now : Nat) (s : Step)
    (hnodup : (db.otps.map OtpRecord.id).Nodup)
    (hfresh : ∀ o ∈ db.otps, o.id < db.nextOtpId)
    (r r' : OtpRecord)
    (hr : r ∈ db.otps)
    (hr' : r' ∈ (applyStep cfg jcfg db now s).otps)
    (hid : r'.id = r.id) :
    (r.isUsed = true → r'.isUsed = true) ∧
    r.attempts ≤ r'.attempts ∧
    (r.attempts ≤ cfg.maxAttempts → r'.attempts ≤ cfg.maxAttempts) ∧
    r'.expiresAt = r.expiresAt ∧
    (¬(r.isUsed = false ∧ now ≤ r.expiresAt ∧
        r.attempts < cfg.maxAttempts) →
     ¬(r'.isUsed = false ∧ now ≤ r'.expiresAt ∧
        r'.attempts < cfg.maxAttempts)) := by
  have hinj : ∀ a ∈ db.otps, ∀ b ∈ db.otps, a.id = b.id → a = b :=
    fun a ha b hb h => List.inj_on_of_nodup_map hnodup ha hb h
  have base : ∀ x : OtpRecord,
      (x.isUsed = true → x.isUsed = true) ∧ x.attempts ≤ x.attempts ∧
      (x.attempts ≤ cfg.maxAttempts → x.attempts ≤ cfg.maxAttempts) ∧
      x.expiresAt = x.expiresAt ∧
      (¬(x.isUsed = false ∧ now ≤ x.expiresAt ∧
          x.attempts < cfg.maxAttempts) →
       ¬(x.isUsed = false ∧ now ≤ x.expiresAt ∧
          x.attempts < cfg.maxAttempts)) :=
    fun x => ⟨fun h => h, le_refl _, fun h => h, rfl, fun h => h⟩
  have hsame : r' ∈ db.otps →
      (r.isUsed = true → r'.isUsed = true) ∧
      r.attempts ≤ r'.attempts ∧
      (r.attempts ≤ cfg.maxAttempts → r'.attempts ≤ cfg.maxAttempts) ∧
      r'.expiresAt = r.expiresAt ∧
      (¬(r.isUsed = false ∧ now ≤ r.expiresAt ∧
          r.attempts < cfg.maxAttempts) →
       ¬(r'.isUsed = false ∧ now ≤ r'.expiresAt ∧
          r'.attempts < cfg.maxAttempts)) := by
    intro hmem
    have heq := hinj r' hmem r hr hid
    subst heq
    exact base r'
  have hnew : r'.id = db.nextOtpId → False := by
    intro h
    have := hfresh r hr
    omega
  cases s with
  | send sid code emailOk =>
    simp only [applyStep] at hr'
    rcases sendOtp_otps_shape cfg db now sid code emailOk with h | ⟨email, h⟩
    · rw [h] at hr'
      exact hsame hr'
    · rw [h] at hr'
      rcases List.mem_append.mp hr' with h1 | h1
      · exact hsame h1
      · have heq : r' = newOtpRow cfg db.nextOtpId email code now := by
          simpa using h1
        exact absurd (show r'.id = db.nextOtpId by rw [heq]; rfl) hnew
  | resend sid code emailOk =>
    simp only [applyStep] at hr'
    rcases resendOtp_otps_shape cfg db now sid code emailOk with h | ⟨email, h⟩
    · rw [h] at hr'
      exact hsame hr'
    · rw [h] at hr'
      rcases List.mem_append.mp hr' with h1 | h1
      · obtain ⟨o, ho, heq⟩ := List.mem_map.mp h1
        have hoid : o.id = r.id := by
          rw [← hid, ← heq]
          by_cases hc : o.email == email && !o.isUsed <;>
            simp [invalidateFor, hc]
        have hor : o = r := hinj o ho r hr hoid
        rw [hor] at heq
        by_cases hc : r.email == email && !r.isUsed
        · have hr'eq : r' = { r with isUsed := true } := by
            rw [← heq]; simp [invalidateFor, hc]
          rw [hr'eq]
          exact ⟨fun _ => rfl, le_refl _, fun h => h, rfl,
            fun _ hb => by simp at hb⟩
        · have hr'eq : r' = r := by rw [← heq]; simp [invalidateFor, hc]
          rw [hr'eq]
          exact base r
      · have heq : r' = newOtpRow cfg db.nextOtpId email code now := by
          simpa using h1
        exact absurd (show r'.id = db.nextOtpId by rw [heq]; rfl) hnew
  | verify sid code =>
    simp only [applyStep] at hr'
    rcases verifyOtp_otps_shape cfg jcfg db now sid code with
      h | ⟨u, sel, hfu, hsel, hlt, h | h⟩
    · rw [h] at hr'
      exact hsame hr'
    · rw [h] at hr'
      obtain ⟨o, ho, heq⟩ := List.mem_map.mp hr'
      have hoid : o.id = r.id := by
        rw [← hid, ← heq]
        by_cases hc : o.id == sel.id <;> simp [bumpAttempts, hc]
      have hor : o = r := hinj o ho r hr hoid
      rw [hor] at heq
      by_cases hc : r.id == sel.id
      · have hrsel : r = sel :=
          hinj r hr sel (selectOtp_mem hsel).1 (by simpa using hc)
        have hr'eq : r' = { r with attempts := r.attempts + 1 } := by
          rw [← heq]; simp [bumpAttempts, hc]
        rw [hr'eq]
        have hltr : r.attempts < cfg.maxAttempts := by rw [hrsel]; exact hlt
        refine ⟨fun h => h, Nat.le_succ _, fun _ => ?_, rfl,
          fun hna hb => ?_⟩
        · show r.attempts + 1 ≤ cfg.maxAttempts
          omega
        · apply hna
          have h2 : r.attempts + 1 < cfg.maxAttempts := hb.2.2
          exact ⟨hb.1, hb.2.1, by omega⟩
      · have hr'eq : r' = r := by rw [← heq]; simp [bumpAttempts, hc]
        rw [hr'eq]
        exact base r
    · rw [h] at hr'
      obtain ⟨o, ho, heq⟩ := List.mem_map.mp hr'
      have hoid : o.id = r.id := by
        rw [← hid, ← heq]
        by_cases hc : o.id == sel.id <;> simp [markUsed, hc]
      have hor : o = r := hinj o ho r hr hoid
      rw [hor] at heq
      by_cases hc : r.id == sel.id
      · have hr'eq : r' = { r with isUsed := true } := by
          rw [← heq]; simp [markUsed, hc]
        rw [hr'eq]
        exact ⟨fun _ => rfl, le_refl _, fun h => h, rfl,
          fun _ hb => by simp at hb⟩
      · have hr'eq : r' = r := by rw [← heq]; simp [markUsed, hc]
        rw [hr'eq]
        exact base r
  | refresh tok =>
    simp only [applyStep] at hr'
    rw [refreshAccessToken_otps_shape jcfg db now tok] at hr'
    exact hsame hr'
  | doLogout tok =>
    simp only [applyStep, logout] at hr'
    exact hsame hr'
  | doLogoutAll uid =>
    simp only [applyStep, logoutAll] at hr'
    exact hsame hr'
  | cleanup =>
    simp only [applyStep, cleanupExpiredTokens] at hr'
    exact hsame (List.mem_filter.mp hr').1

/-- Witness for C9: the wrong-code verify step on the fresh row of `dbD`
bumps its attempts from 0 to 1; all five invariant conjuncts hold for that
pair of rows. -/
theorem otp_record_state_machine_invariants_witness :
    (recD.isUsed = true → ({ recD with attempts := 1 } : OtpRecord).isUsed
      = true) ∧
    recD.attempts ≤ ({ recD with attempts := 1 } : OtpRecord).attempts ∧
    (recD.attempts ≤ cfgD.maxAttempts →
      ({ recD with attempts := 1 } : OtpRecord).attempts
        ≤ cfgD.maxAttempts) ∧
    ({ recD with attempts := 1 } : OtpRecord).expiresAt = recD.expiresAt ∧
    (¬(recD.isUsed = false ∧ 1 ≤ recD.expiresAt ∧
        recD.attempts < cfgD.maxAttempts) →
     ¬(({ recD with attempts := 1 } : OtpRecord).isUsed = false ∧
        1 ≤ ({ recD with attempts := 1 } : OtpRecord).expiresAt ∧
        ({ recD with attempts := 1 } : OtpRecord).attempts
          < cfgD.maxAttempts)) :=
  otp_record_state_machine_invariants cfgD jcfgD dbD 1
    (.verify "PS/ITC/22/0120" "000000") (by decide) (by decide) recD
    { recD with attempts := 1 } (by decide) (by decide) (by decide)

/-! ### The regex mask on short local parts (C10) -/

theorem splitOnChar_cons_eq (c a : Char) (t : List Char) :
    splitOnChar c (a :: t)
      = match splitOnChar c t with
        | [] => if a == c then [[], [a]] else [[a]]
        | h :: r => if a == c then [] :: h :: r else (a :: h) :: r := rfl

theorem splitOnChar_ne_nil (c : Char) (cs : List Char) :
    splitOnChar c cs ≠ [] := by
  cases cs with
  | nil => simp [splitOnChar]
  | cons a t =>
    rw [splitOnChar_cons_eq]
    cases splitOnChar c t with
    | nil => by_cases h : a == c <;> simp [h]
    | cons x y => by_cases h : a == c <;> simp [h]

theorem splitOnChar_not_mem (c : Char) (d : List Char) (hd : c ∉ d) :
    splitOnChar c d = [d] := by
  induction d with
  | nil => rfl
  | cons a t ih =>
    simp only [List.mem_cons, not_or] at hd
    have ht := ih hd.2
    have ha : (a == c) = false := by
      rw [beq_eq_false_iff_ne]
      exact fun h => hd.1 h.symm
    rw [splitOnChar_cons_eq, ht]
    simp [ha]

theorem splitOnChar_append (c : Char) (l d : List Char) (hl : c ∉ l) :
    splitOnChar c (l ++ c :: d) = l :: splitOnChar c d := by
  induction l with
  | nil =>
    obtain ⟨h0, r0, hr⟩ : ∃ h0 r0, splitOnChar c d = h0 :: r0 := by
      cases hsp : splitOnChar c d with
      | nil => exact absurd hsp (splitOnChar_ne_nil c d)
      | cons x y => exact ⟨x, y, rfl⟩
    show splitOnChar c (c :: d) = [] :: splitOnChar c d
    rw [splitOnChar_cons_eq, hr]
    simp
  | cons a t ih =>
    simp only [List.mem_cons, not_or] at hl
    have ht := ih hl.2
    have ha : (a == c) = false := by
      rw [beq_eq_false_iff_ne]
      exact fun h => hl.1 h.symm
    show splitOnChar c (a :: (t ++ c :: d)) = (a :: t) :: splitOnChar c d
    rw [splitOnChar_cons_eq, ht]
    simp [ha]

/-- With a local part shorter than 3 characters and a single `@`, there is
no `@` at position ≥ 3, so the regex `^(.{3}).*(@.*)$` does not match. -/
theorem lastAt3_none (l d : List Char) (hl : l.length < 3)
    (hd : ('@' : Char) ∉ d) : lastAt3 (l ++ '@' :: d) = none := by
  unfold lastAt3
  have hfil : (List.range (l ++ '@' :: d).length).filter
      (fun i => decide (3 ≤ i) && ((l ++ '@' :: d).getD i ' ' == '@'))
      = [] := by
    rw [List.filter_eq_nil_iff]
    intro i hi hcontra
    simp only [Bool.and_eq_true, decide_eq_true_eq, beq_iff_eq] at hcontra
    obtain ⟨h3, hat⟩ := hcontra
    have hge : l.length ≤ i := by omega
    rw [List.getD_append_right _ _ _ _ hge] at hat
    obtain ⟨k, hk⟩ : ∃ k, i - l.length = k + 1 :=
      ⟨i - l.length - 1, by omega⟩
    rw [hk] at hat
    have hat2 : d.getD k ' ' = '@' := hat
    by_cases hkd : k < d.length
    · rw [List.getD_eq_getElem _ _ hkd] at hat2
      exact hd (hat2 ▸ List.getElem_mem hkd)
    · rw [List.getD_eq_default _ _ (by omega)] at hat2
      exact absurd hat2 (by decide)
  rw [hfil]
  rfl

/-- C10: for an email whose local part is shorter than 3 characters (single
`@`), the inline regex replacement of `sendOtp`/`resendOtp` matches nothing:
the operations' responses return the FULL unmasked address, while the unused
pure helper `maskEmail` would have masked it as first character + `***` +
domain. -/
theorem short_local_part_email_disclosed
    (l d : List Char) (hl : l.length < 3) (hd : ('@' : Char) ∉ d)
    (hld : ('@' : Char) ∉ l)
    (cfg : OtpConfig) (db : Db) (now : Nat) (sid code : String) (u : User)
    (hu : findUser db sid = some u)
    (hue : u.email = ⟨l ++ '@' :: d⟩)
    (hact : u.isActive = true)
    (hrate : recentCount db.otps u.email now
        (cfg.rateLimitWindowMinutes * 60000) < cfg.rateLimitMaxRequests) :
    regexMaskEmail ⟨l ++ '@' :: d⟩ = ⟨l ++ '@' :: d⟩ ∧
    (sendOtp cfg db now sid code true).1 = .ok ⟨l ++ '@' :: d⟩ ∧
    (resendOtp cfg db now sid code true).1
      = .ok (⟨l ++ '@' :: d⟩, cfg.expirySeconds) ∧
    maskEmail ⟨l ++ '@' :: d⟩ = ⟨l.take 1 ++ ("***@".data ++ d)⟩ := by
  have hmask : regexMaskEmail ⟨l ++ '@' :: d⟩ = ⟨l ++ '@' :: d⟩ := by
    unfold regexMaskEmail
    rw [show (⟨l ++ '@' :: d⟩ : String).data = l ++ '@' :: d from rfl,
      lastAt3_none l d hl hd]
  have hnot : ¬(cfg.rateLimitMaxRequests ≤ recentCount db.otps u.email now
      (cfg.rateLimitWindowMinutes * 60000)) := by omega
  refine ⟨hmask, ?_, ?_, ?_⟩
  · have h := by simpa using
      (sendOtp_returns_regex_masked_email cfg db now sid code u hu hact
        hrate).1
    rw [h, hue, hmask]
  · have h : (resendOtp cfg db now sid code true).1
        = .ok (regexMaskEmail u.email, cfg.expirySeconds) := by
      simp [resendOtp, hu, hact, hnot]
    rw [h, hue, hmask]
  · unfold maskEmail
    rw [show (⟨l ++ '@' :: d⟩ : String).data = l ++ '@' :: d from rfl,
      splitOnChar_append '@' l d hld, splitOnChar_not_mem '@' d hd]
    have hle : l.length ≤ 4 := by omega
    simp [hle]

/-- Witness for C10: the two-character local part `ab@x.y` goes through
`sendOtp` undisclosed — returned verbatim — while `maskEmail` would have
produced `a***@x.y`. -/
theorem short_local_part_email_disclosed_witness :
    regexMaskEmail "ab@x.y" = "ab@x.y" ∧
    (sendOtp cfgD
        { users := [{ amaUser with email := "ab@x.y" }], otps := [],
          refreshTokens := [], nextOtpId := 0, nextRtId := 0 }
        0 "PS/ITC/22/0120" "123456" true).1 = .ok "ab@x.y" ∧
    maskEmail "ab@x.y" = "a***@x.y" := by
  have h := short_local_part_email_disclosed "ab".data "x.y".data
    (by decide) (by decide) (by decide) cfgD
    { users := [{ amaUser with email := "ab@x.y" }], otps := [],
      refreshTokens := [], nextOtpId := 0, nextRtId := 0 }
    0 "PS/ITC/22/0120" "123456" { amaUser with email := "ab@x.y" }
    (by decide) (by decide) (by decide) (by decide)
  exact ⟨h.1, h.2.1, h.2.2.2⟩

end Citsa
